import Mathlib

/-!
# Verification of the anchor-based pro-rata billing engine

Shallow embedding of the pro-rata billing core of this repository:

* `src/shared/prorata.ts` — cycle resolver (`anchorCycle`), prorate engine
  (`prorate`), activation helpers (`firstAnchorAfterActivation`,
  `cycleFromAnchor`, `computeActivationProrata`) and the VAT view of
  `formatProrataOutput`;
* `src/client/src/lib/proRata.ts` — the client-side variant
  (`firstAnchorAfter`, `computeProrata`);
* `src/shared/schema.ts` — the numeric bounds of `proRataInputSchema`.

Modelling conventions:

* A JS `Date` at UTC midnight is a calendar date.  We model it as a
  `(year, month, day)` triple (month 0-based, day 1-based, exactly as
  `getUTCMonth` / `getUTCDate` report) together with a proleptic-Gregorian
  day number `toRataDie`.  Two UTC-midnight `Date`s compare by `getTime()`
  exactly as their day numbers compare, and the millisecond difference of
  two UTC midnights divided by 86 400 000 (then `Math.round`ed, which is
  exact here) is the difference of their day numbers, so `daysBetween`
  is embedded as a difference of `toRataDie` values.
* `Date.UTC(y, m, d)` normalizes an out-of-range month by carrying into
  the year and an out-of-range day by carrying into the month; on day
  numbers this normalization is linear, which `utcRD` captures.
* JS floating-point amounts are modelled as rationals (`ℚ`); `toFixed(3)`
  rendering is modelled by rounding to thousandths (`fmt3`).
-/

namespace Prorata

/-- Gregorian leap-year rule.  JS `Date` uses the proleptic Gregorian
calendar; `y % 4 === 0` in JS (truncated remainder) is equivalent to
`4 ∣ y`, likewise for 100 and 400. -/
def isLeap (y : Int) : Bool := decide ((4 ∣ y ∧ ¬ (100 ∣ y)) ∨ 400 ∣ y)

/-- Number of days of month `m` (0-based: 0 = January … 11 = December) of
year `y`; this is what `new Date(Date.UTC(year, month + 1, 0)).getUTCDate()`
computes in `clampAnchorDay` (src/shared/prorata.ts:93). -/
def daysInMonth (y : Int) (m : Nat) : Nat :=
  if m = 1 then (if isLeap y then 29 else 28)
  else if m = 3 ∨ m = 5 ∨ m = 8 ∨ m = 10 then 30
  else 31

/-- Days of year `y` strictly before month `m` (0-based). -/
def daysBeforeMonth (y : Int) : Nat → Nat
  | 0 => 0
  | m + 1 => daysBeforeMonth y m + daysInMonth y m

/-- Day number of January 1 of year `y` in a fixed proleptic-Gregorian
day count (an affine re-basing of the JS epoch day
`Date.UTC(y,0,1) / 86400000`; only differences and order matter). -/
def daysBeforeYear (y : Int) : Int :=
  365 * y + (y - 1) / 4 - (y - 1) / 100 + (y - 1) / 400

/-- Day number of the first day of month `m` (0-based) of year `y`. -/
def monthStartRD (y : Int) (m : Nat) : Int :=
  daysBeforeYear y + (daysBeforeMonth y m : Int)

/-- A calendar date, i.e. a JS `Date` normalized to UTC midnight
(`toUtcMidnight`, src/shared/prorata.ts:80): `year` = `getUTCFullYear()`,
`month` = `getUTCMonth()` (0-based), `day` = `getUTCDate()` (1-based). -/
structure Date where
  year : Int
  month : Nat
  day : Nat
deriving DecidableEq, Repr

/-- A `Date` that a real JS UTC-midnight `Date` can denote: the month is
in range and the day exists in that month. -/
def Date.Valid (d : Date) : Prop :=
  d.month < 12 ∧ 1 ≤ d.day ∧ d.day ≤ daysInMonth d.year d.month

instance (d : Date) : Decidable d.Valid := by
  unfold Date.Valid; infer_instance

/-- Proleptic-Gregorian day number of a date (order-isomorphic to the JS
UTC-midnight timestamp `getTime()`). -/
def toRataDie (d : Date) : Int :=
  monthStartRD d.year d.month + (d.day : Int)

/-- Source `daysBetween(a, b)` (src/shared/prorata.ts:85): the whole-day
difference of two UTC midnights.  The source rounds the millisecond
difference over 86 400 000, which is exact for UTC midnights. -/
def daysBetween (a b : Date) : Int := toRataDie b - toRataDie a

/-- The result of `Date.UTC(y, m, d)` as a day number, for arbitrary
(possibly out-of-range) integer month and day: JS carries month overflow
into the year and day overflow into the month, so the result is the
normalized month's start plus `d`. -/
def utcRD (y : Int) (m : Int) (d : Int) : Int :=
  monthStartRD (y + m / 12) ((m % 12).toNat) + d

/-- Source `clampAnchorDay(year, month, anchorDay)` (src/shared/prorata.ts:92):
`Math.max(1, Math.min(anchorDay, lastDay))`. -/
def clampAnchorDay (year : Int) (month : Nat) (anchorDay : Nat) : Nat :=
  max 1 (min anchorDay (daysInMonth year month))

/-- Source `anchorDate(base, anchorDay)` (src/shared/prorata.ts:97): the date of
`base`'s month whose day is the clamped anchor day. -/
def anchorDate (base : Date) (anchorDay : Nat) : Date :=
  ⟨base.year, base.month, clampAnchorDay base.year base.month anchorDay⟩

/-- Source `shiftMonth(date, months)` (src/shared/prorata.ts:104): move to the
month `months` away (JS `Date.UTC(year, month + months, 1)` normalizes the
month, carrying into the year) and clamp the original day-of-month into
the target month. -/
def shiftMonth (d : Date) (months : Int) : Date :=
  let t : Int := (d.month : Int) + months
  let y : Int := d.year + t / 12
  let m : Nat := (t % 12).toNat
  ⟨y, m, clampAnchorDay y m d.day⟩

/-- A billing cycle as returned by `anchorCycle` / `cycleFromAnchor`;
the source's field `end` is named `stop` (`end` is reserved in Lean). -/
structure Cycle where
  start : Date
  stop : Date
  days : Int
deriving DecidableEq, Repr

/-- Source `anchorCycle(date, anchorDay)` (src/shared/prorata.ts:118): the
anchor-based billing cycle surrounding the pivot date. -/
def anchorCycle (date : Date) (anchorDay : Nat) : Cycle :=
  let pivot := date
  let currentAnchor := anchorDate pivot anchorDay
  if toRataDie pivot - toRataDie currentAnchor < 0 then
    let prevMonth := shiftMonth currentAnchor (-1)
    let start := anchorDate prevMonth anchorDay
    ⟨start, currentAnchor, max 0 (daysBetween start currentAnchor)⟩
  else
    let nextMonth := shiftMonth currentAnchor 1
    let stop := anchorDate nextMonth anchorDay
    ⟨currentAnchor, stop, max 0 (daysBetween currentAnchor stop)⟩

/-- Source `ProrateMode` (src/shared/prorata.ts:8). -/
inductive ProrateMode where
  | remaining
  | elapsed
deriving DecidableEq, Repr

/-- Source `ProrateResult` (src/shared/prorata.ts:10); amounts as rationals. -/
structure ProrateResult where
  start : Date
  stop : Date
  days : Int
  usedDays : Int
  ratio : ℚ
  value : ℚ
deriving DecidableEq, Repr

/-- Source `prorate(monthly, pivot, anchorDay, mode)` (src/shared/prorata.ts:146). -/
def prorate (monthly : ℚ) (pivot : Date) (anchorDay : Nat) (mode : ProrateMode) :
    ProrateResult :=
  let cycle := anchorCycle pivot anchorDay
  let usedDays : Int :=
    match mode with
    | .elapsed => max 0 (min cycle.days (daysBetween cycle.start pivot))
    | .remaining => max 0 (min cycle.days (daysBetween pivot cycle.stop))
  let ratio : ℚ := if cycle.days = 0 then 0 else (usedDays : ℚ) / (cycle.days : ℚ)
  { start := cycle.start, stop := cycle.stop, days := cycle.days,
    usedDays := usedDays, ratio := ratio, value := monthly * ratio }

/-- Source `firstAnchorAfterActivation(act, anchorDay)` (src/shared/prorata.ts:172). -/
def firstAnchorAfterActivation (act : Date) (anchorDay : Nat) : Date :=
  let activation := act
  let sameMonthAnchor := anchorDate activation anchorDay
  if toRataDie sameMonthAnchor ≤ toRataDie activation then
    anchorDate (shiftMonth sameMonthAnchor 1) anchorDay
  else
    sameMonthAnchor

/-- Source `cycleFromAnchor(end, anchorDay)` (src/shared/prorata.ts:185); the
source's parameter `end` is named `stop`. -/
def cycleFromAnchor (stop : Date) (anchorDay : Nat) : Cycle :=
  let prevAnchor := shiftMonth stop (-1)
  let start := anchorDate prevAnchor anchorDay
  ⟨start, stop, max 0 (daysBetween start stop)⟩

/-- Source `fmt3` / `toFixed(3)` rendering modelled as rounding to thousandths. -/
def fmt3 (q : ℚ) : ℚ := ((round (q * 1000) : ℤ) : ℚ) / 1000

/-- The numeric content of `ActivationProrataSummary`
(src/shared/prorata.ts:19): the source renders `period` from
`(activation, firstAnchor)`, `pct` from `ratio`, and `proAmount` /
`monthly` through `fmt3`; we keep the underlying values. -/
structure ActivationProrataSummary where
  periodStart : Date
  periodEnd : Date
  proDays : Int
  days : Int
  ratio : ℚ
  proAmountRaw : ℚ
  monthly : ℚ
  anchor : Nat
deriving DecidableEq, Repr

/-- Source `computeActivationProrata(monthly, activation, anchorDay)`
(src/shared/prorata.ts:199). -/
def computeActivationProrata (monthly : ℚ) (activation : Date) (anchorDay : Nat) :
    ActivationProrataSummary :=
  let firstAnchor := firstAnchorAfterActivation activation anchorDay
  let cycle := cycleFromAnchor firstAnchor anchorDay
  let proDays : Int := max 0 (daysBetween activation firstAnchor)
  let ratio : ℚ := if cycle.days = 0 then 0 else (proDays : ℚ) / (cycle.days : ℚ)
  { periodStart := activation, periodEnd := firstAnchor,
    proDays := proDays, days := cycle.days, ratio := ratio,
    proAmountRaw := monthly * ratio, monthly := monthly, anchor := anchorDay }

/-- Source `VAT_RATE` (src/shared/prorata.ts:77). -/
def VAT_RATE : ℚ := 16 / 100

/-- Modelled from the spec: `grossFromNet(net, vatRate)`.  No source
function takes the rate as a parameter; the computation pattern
`vat = net * rate; gross = net + vat` is the VAT view of
`formatProrataOutput` (src/shared/prorata.ts:267-281), which fixes the
rate to `VAT_RATE = 0.16`. -/
def grossFromNet (net vatRate : ℚ) : ℚ := net + net * vatRate

/-- Source `net = gross / (1 + vatRate)`: the gross branch of the client
`computeProrata` (src/client/src/lib/proRata.ts:101-104). -/
def netFromGross (gross vatRate : ℚ) : ℚ := gross / (1 + vatRate)

/-- The numeric acceptance condition of `proRataInputSchema`
(src/shared/schema.ts:24-35): `monthlySubscriptionValue` must be `≥ 0`
(and finite — automatic in `ℚ`), and `fullInvoiceAmount`, when present,
must be `≥ 0` (and finite). -/
def proRataInputSchemaOk (monthlySubscriptionValue : ℚ)
    (fullInvoiceAmount : Option ℚ) : Bool :=
  decide (0 ≤ monthlySubscriptionValue) &&
    (match fullInvoiceAmount with
     | none => true
     | some a => decide (0 ≤ a))

end Prorata

namespace ClientProrata

open Prorata (Date toRataDie utcRD monthStartRD)

/-- Source `firstAnchorAfter(dUTC, anchorDay)` (src/client/src/lib/proRata.ts:63)
as a day number.  The client builds `Date.UTC(y, m, anchorDay)` without
clamping, so `utcRD` (which carries overflow like JS) is the exact
embedding. -/
def firstAnchorAfterRD (dUTC : Date) (anchorDay : Int) : Int :=
  let same := utcRD dUTC.year dUTC.month anchorDay
  if same ≤ toRataDie dUTC then
    utcRD dUTC.year ((dUTC.month : Int) + 1) anchorDay
  else
    same

/-- Source `ProrataInput` (src/client/src/lib/proRata.ts:11): a union of a
gross-mode and a monthly-mode record; `vatRate` and `anchorDay` are
optional (defaulted with `??` inside `computeProrata`). -/
inductive ProrataInput where
  | gross (activationDate : Date) (fullInvoiceGross : ℚ)
      (vatRate : Option ℚ) (anchorDay : Option Int)
  | monthly (activationDate : Date) (monthlyNet : ℚ)
      (vatRate : Option ℚ) (anchorDay : Option Int)
deriving DecidableEq, Repr

def ProrataInput.activationDate : ProrataInput → Date
  | .gross a _ _ _ => a
  | .monthly a _ _ _ => a

def ProrataInput.vatRateOpt : ProrataInput → Option ℚ
  | .gross _ _ v _ => v
  | .monthly _ _ v _ => v

def ProrataInput.anchorDayOpt : ProrataInput → Option Int
  | .gross _ _ _ a => a
  | .monthly _ _ _ a => a

/-- The numeric content of `ProrataOutput`
(src/client/src/lib/proRata.ts:27); the `Date` fields are kept as day
numbers (`…RD`) because the source manufactures them by raw timestamp
arithmetic (`end - cycleDays * DAY`, `end + cycleDays * DAY`). -/
structure ProrataOutput where
  cycleDays : Int
  proDays : Int
  ratio : ℚ
  prorataNet : ℚ
  monthlyNet : ℚ
  vatRate : ℚ
  cycleStartRD : Int
  cycleEndRD : Int
  nextCycleEndRD : Int
  fullInvoiceGross : Option ℚ
deriving DecidableEq, Repr

/-- Source `computeProrata(input)` (src/client/src/lib/proRata.ts:87).  Note the
source hardcodes `cycleDays = 15` and derives the cycle start as
`end − 15 days`. -/
def computeProrata (input : ProrataInput) : ProrataOutput :=
  let vatRate : ℚ := input.vatRateOpt.getD (16 / 100)
  let anchorDay : Int := input.anchorDayOpt.getD 15
  let act := input.activationDate
  let endRD := firstAnchorAfterRD act anchorDay
  let cycleDays : Int := 15
  let startRD := endRD - cycleDays
  let used : Int := max 0 (endRD - toRataDie act)
  let proDays : Int := min used cycleDays
  let ratio : ℚ := if cycleDays = 0 then 0 else (proDays : ℚ) / (cycleDays : ℚ)
  let monthlyNet : ℚ :=
    match input with
    | .gross _ g _ _ => g / (1 + vatRate)
    | .monthly _ m _ _ => m
  { cycleDays := cycleDays, proDays := proDays, ratio := ratio,
    prorataNet := monthlyNet * ratio, monthlyNet := monthlyNet,
    vatRate := vatRate,
    cycleStartRD := startRD, cycleEndRD := endRD,
    nextCycleEndRD := endRD + cycleDays,
    fullInvoiceGross :=
      match input with
      | .gross _ g _ _ => some g
      | .monthly _ _ _ _ => none }

end ClientProrata

namespace Prorata

/-! ## Calendar lemmas -/

/-- Spanning one Gregorian year adds 365 days, or 366 across a leap year. -/
theorem daysBeforeYear_succ (y : Int) :
    daysBeforeYear (y + 1) = daysBeforeYear y + 365 + (if isLeap y then 1 else 0) := by
  unfold daysBeforeYear isLeap
  split_ifs with h
  · simp only [decide_eq_true_eq] at h
    omega
  · simp only [decide_eq_true_eq] at h
    omega

/-- Every month has at least 28 days. -/
theorem daysInMonth_pos (y : Int) (m : Nat) : 28 ≤ daysInMonth y m := by
  unfold daysInMonth
  split_ifs <;> omega

/-- No month has more than 31 days. -/
theorem daysInMonth_le (y : Int) (m : Nat) : daysInMonth y m ≤ 31 := by
  unfold daysInMonth
  split_ifs <;> omega

/-- The clamped anchor day is at least 1. -/
theorem clampAnchorDay_pos (y : Int) (m : Nat) (a : Nat) :
    1 ≤ clampAnchorDay y m a := by
  unfold clampAnchorDay
  omega

/-- The clamped anchor day never exceeds the month's length. -/
theorem clampAnchorDay_le (y : Int) (m : Nat) (a : Nat) :
    clampAnchorDay y m a ≤ daysInMonth y m := by
  have := daysInMonth_pos y m
  unfold clampAnchorDay
  omega

/-- Advancing `monthStartRD` to the next month (within a year) adds that
month's length; this is the defining recursion of `daysBeforeMonth`. -/
theorem monthStartRD_succ (y : Int) (m : Nat) :
    monthStartRD y (m + 1) = monthStartRD y m + daysInMonth y m := by
  have h : daysBeforeMonth y (m + 1) = daysBeforeMonth y m + daysInMonth y m := rfl
  unfold monthStartRD
  rw [h]
  push_cast
  ring

/-- Advancing `monthStartRD` from December to the next January adds
December's length (year rollover). -/
theorem monthStartRD_dec (y : Int) :
    monthStartRD (y + 1) 0 = monthStartRD y 11 + daysInMonth y 11 := by
  have hy := daysBeforeYear_succ y
  by_cases hL : isLeap y <;>
    simp_all [monthStartRD, daysBeforeMonth, daysInMonth] <;> omega

/-- Reduction of `shiftMonth · 1` below December. -/
theorem shiftMonth_next_lt11 (y : Int) (m d : Nat) (hm : m < 11) :
    shiftMonth ⟨y, m, d⟩ 1 = ⟨y, m + 1, clampAnchorDay y (m + 1) d⟩ := by
  unfold shiftMonth
  interval_cases m <;> norm_num <;> try exact ⟨rfl, rfl⟩

/-- Reduction of `shiftMonth · 1` at December (year rollover). -/
theorem shiftMonth_next_11 (y : Int) (d : Nat) :
    shiftMonth ⟨y, 11, d⟩ 1 = ⟨y + 1, 0, clampAnchorDay (y + 1) 0 d⟩ := by
  unfold shiftMonth
  norm_num

/-- Reduction of `shiftMonth · (-1)` above January. -/
theorem shiftMonth_prev_pos (y : Int) (m d : Nat) (hm0 : 1 ≤ m) (hm : m < 12) :
    shiftMonth ⟨y, m, d⟩ (-1) = ⟨y, m - 1, clampAnchorDay y (m - 1) d⟩ := by
  unfold shiftMonth
  interval_cases m <;> norm_num <;> try exact ⟨rfl, rfl⟩

/-- Reduction of `shiftMonth · (-1)` at January (year rollover). -/
theorem shiftMonth_prev_0 (y : Int) (d : Nat) :
    shiftMonth ⟨y, 0, d⟩ (-1) = ⟨y - 1, 11, clampAnchorDay (y - 1) 11 d⟩ := rfl

/-- Any day of a month is strictly before any clamped anchor day of the
next month: the composite `anchorDate (shiftMonth · 1)` used by
`anchorCycle` and `firstAnchorAfterActivation` lands strictly after every
day `d ≤ daysInMonth` of the base month. -/
theorem toRataDie_lt_next_anchor (y : Int) (m : Nat) (d d' a : Nat)
    (hm : m < 12) (hd : d ≤ daysInMonth y m) :
    toRataDie ⟨y, m, d⟩ < toRataDie (anchorDate (shiftMonth ⟨y, m, d'⟩ 1) a) := by
  by_cases h11 : m = 11
  · subst h11
    rw [shiftMonth_next_11]
    have hstep := monthStartRD_dec y
    have hc := clampAnchorDay_pos (y + 1) 0 a
    simp only [toRataDie, anchorDate]
    omega
  · rw [shiftMonth_next_lt11 y m d' (by omega)]
    have hstep := monthStartRD_succ y m
    have hc := clampAnchorDay_pos y (m + 1) a
    simp only [toRataDie, anchorDate]
    omega

/-- Any clamped anchor day of the previous month is strictly before any
positive day of the base month: the composite `anchorDate (shiftMonth · (-1))`
used by `anchorCycle` and `cycleFromAnchor` lands strictly before every
day `d ≥ 1` of the base month. -/
theorem prev_anchor_lt_toRataDie (y : Int) (m : Nat) (d d' a : Nat)
    (hm : m < 12) (hd : 1 ≤ d) :
    toRataDie (anchorDate (shiftMonth ⟨y, m, d'⟩ (-1)) a) < toRataDie ⟨y, m, d⟩ := by
  by_cases h0 : m = 0
  · subst h0
    rw [shiftMonth_prev_0]
    have hstep := monthStartRD_dec (y - 1)
    rw [sub_add_cancel] at hstep
    have hc := clampAnchorDay_le (y - 1) 11 a
    have hdim := daysInMonth_le (y - 1) 11
    simp only [toRataDie, anchorDate]
    omega
  · rw [shiftMonth_prev_pos y m d' (by omega) hm]
    have hstep := monthStartRD_succ y (m - 1)
    have hm1 : m - 1 + 1 = m := by omega
    rw [hm1] at hstep
    have hc := clampAnchorDay_le y (m - 1) a
    have hdim := daysInMonth_le y (m - 1)
    simp only [toRataDie, anchorDate]
    omega

/-- Stepping one month forward and then one month back (through the
`anchorDate ∘ shiftMonth` composites of the source) returns to the
original year and month. -/
theorem shiftMonth_up_down (y : Int) (m : Nat) (d a : Nat) (hm : m < 12) :
    (shiftMonth (anchorDate (shiftMonth ⟨y, m, d⟩ 1) a) (-1)).year = y ∧
    (shiftMonth (anchorDate (shiftMonth ⟨y, m, d⟩ 1) a) (-1)).month = m := by
  by_cases h11 : m = 11
  · subst h11
    rw [shiftMonth_next_11]
    simp only [anchorDate]
    rw [shiftMonth_prev_0]
    constructor
    · simp
    · rfl
  · rw [shiftMonth_next_lt11 y m d (by omega)]
    simp only [anchorDate]
    rw [shiftMonth_prev_pos y (m + 1) _ (by omega) (by omega)]
    constructor
    · rfl
    · simp

end Prorata

open Prorata

/-- C1: for anchor day 15, activation date 2025-10-14 (month index 9) and
monthly amount 30, the activation-style prorate computation returns next
anchor 2025-10-15, the cycle 2025-09-15 → 2025-10-15 with 30 total days,
1 used day, ratio 1/30 and prorated value exactly 1 (rendered 1.000). -/
theorem claim_C1 :
    firstAnchorAfterActivation ⟨2025, 9, 14⟩ 15 = ⟨2025, 9, 15⟩ ∧
    cycleFromAnchor ⟨2025, 9, 15⟩ 15 = ⟨⟨2025, 8, 15⟩, ⟨2025, 9, 15⟩, 30⟩ ∧
    computeActivationProrata 30 ⟨2025, 9, 14⟩ 15 =
      { periodStart := ⟨2025, 9, 14⟩, periodEnd := ⟨2025, 9, 15⟩,
        proDays := 1, days := 30, ratio := 1/30, proAmountRaw := 1,
        monthly := 30, anchor := 15 } := by
  refine ⟨by decide, by decide, ?_⟩
  have h1 : firstAnchorAfterActivation ⟨2025, 9, 14⟩ 15 = ⟨2025, 9, 15⟩ := by decide
  have h2 : cycleFromAnchor ⟨2025, 9, 15⟩ 15 = ⟨⟨2025, 8, 15⟩, ⟨2025, 9, 15⟩, 30⟩ := by
    decide
  have h3 : daysBetween ⟨2025, 9, 14⟩ ⟨2025, 9, 15⟩ = 1 := by decide
  unfold computeActivationProrata
  norm_num [h1, h2, h3]

/-- C5: for every year, month and anchorDay in [1,31], the clamped anchor
day exists in the month: it is at least 1, at most the month's length,
equals the month's last day when the anchor exceeds it, and equals the
anchor itself otherwise. -/
theorem claim_C5 (y : Int) (m : Nat) (anchorDay : Nat)
    (hm : m < 12) (h1 : 1 ≤ anchorDay) (h31 : anchorDay ≤ 31) :
    1 ≤ clampAnchorDay y m anchorDay ∧
    clampAnchorDay y m anchorDay ≤ daysInMonth y m ∧
    (daysInMonth y m < anchorDay → clampAnchorDay y m anchorDay = daysInMonth y m) ∧
    (anchorDay ≤ daysInMonth y m → clampAnchorDay y m anchorDay = anchorDay) := by
  have hpos := daysInMonth_pos y m
  unfold clampAnchorDay
  refine ⟨by omega, by omega, fun h => by omega, fun h => by omega⟩

/-- Witness for C5 at February 2024 (leap year, month index 1) and anchor
day 31: the clamp resolves to 29. -/
theorem claim_C5_witness :
    (1 : Nat) ≤ 31 ∧ (31 : Nat) ≤ 31 ∧ (1 : Nat) < 12 ∧
    (1 ≤ clampAnchorDay 2024 1 31 ∧
     clampAnchorDay 2024 1 31 ≤ daysInMonth 2024 1 ∧
     (daysInMonth 2024 1 < 31 → clampAnchorDay 2024 1 31 = daysInMonth 2024 1) ∧
     (31 ≤ daysInMonth 2024 1 → clampAnchorDay 2024 1 31 = 31)) :=
  ⟨by decide, by decide, by decide, claim_C5 2024 1 31 (by decide) (by decide) (by decide)⟩

/-- C6: for anchor day 10, pivot 2024-02-20 (month index 1), monthly 100
and elapsed mode, `prorate` returns the cycle 2024-02-10 → 2024-03-10 with
29 total days, 10 used days, ratio 10/29 and value 1000/29 ≈ 34.483
(exactly 34.483 after the 3-decimal rendering). -/
theorem claim_C6 :
    prorate 100 ⟨2024, 1, 20⟩ 10 .elapsed =
      { start := ⟨2024, 1, 10⟩, stop := ⟨2024, 2, 10⟩, days := 29,
        usedDays := 10, ratio := 10/29, value := 1000/29 } ∧
    fmt3 (1000/29) = 34483/1000 := by
  constructor
  · have h1 : anchorCycle ⟨2024, 1, 20⟩ 10 = ⟨⟨2024, 1, 10⟩, ⟨2024, 2, 10⟩, 29⟩ := by
      decide
    have h2 : daysBetween ⟨2024, 1, 10⟩ ⟨2024, 1, 20⟩ = 10 := by decide
    unfold prorate
    norm_num [h1, h2]
  · unfold fmt3
    rw [round_eq]
    rw [show (1000 : ℚ)/29 * 1000 + 1/2 = 2000029/58 by norm_num]
    have hf : ⌊(2000029 : ℚ)/58⌋ = 34483 := by
      rw [Int.floor_eq_iff]
      constructor <;> norm_num
    rw [hf]
    norm_num

/-- C9: the client gross-invoice entry point with gross 116 and VAT rate
0.16 derives monthlyNet = 116 / 1.16 = 100 exactly, the VAT share is
exactly 16 (both as gross − net and as net × rate), and the original
gross is echoed, for every activation date. -/
theorem claim_C9 (act : Prorata.Date) :
    (ClientProrata.computeProrata
        (.gross act 116 (some (16/100)) none)).monthlyNet = 100 ∧
    116 - (ClientProrata.computeProrata
        (.gross act 116 (some (16/100)) none)).monthlyNet = 16 ∧
    (ClientProrata.computeProrata
        (.gross act 116 (some (16/100)) none)).monthlyNet * (16/100) = 16 ∧
    (ClientProrata.computeProrata
        (.gross act 116 (some (16/100)) none)).fullInvoiceGross = some 116 := by
  have h : (ClientProrata.computeProrata
      (.gross act 116 (some (16/100)) none)).monthlyNet = 100 := by
    unfold ClientProrata.computeProrata
    norm_num [ClientProrata.ProrataInput.vatRateOpt]
  exact ⟨h, by rw [h]; norm_num, by rw [h]; norm_num, rfl⟩

/-- Counterexample to C4 as stated: for activation 2025-10-15, the
same-month anchor (2025-10-15) is at (equal to) the activation date, so
the claim demands it be returned; the code instead rolls forward and
returns next month's anchor 2025-11-15. -/
theorem claim_C4_counterexample :
    firstAnchorAfterActivation ⟨2025, 9, 15⟩ 15 = ⟨2025, 10, 15⟩ ∧
    anchorDate ⟨2025, 9, 15⟩ 15 = ⟨2025, 9, 15⟩ ∧
    firstAnchorAfterActivation ⟨2025, 9, 15⟩ 15 ≠ anchorDate ⟨2025, 9, 15⟩ 15 := by
  refine ⟨by decide, by decide, by decide⟩

/-- C4 (amended): `firstAnchorAfterActivation` returns the activation
month's (clamped) anchor exactly when that anchor is strictly after the
activation date, and next month's anchor when the activation date is on
or after the same-month anchor (including exact equality); in either case
the returned anchor is strictly after the activation date. -/
theorem claim_C4 (act : Prorata.Date) (anchorDay : Nat) (hv : act.Valid) :
    (toRataDie act < toRataDie (anchorDate act anchorDay) →
      firstAnchorAfterActivation act anchorDay = anchorDate act anchorDay) ∧
    (toRataDie (anchorDate act anchorDay) ≤ toRataDie act →
      firstAnchorAfterActivation act anchorDay =
        anchorDate (shiftMonth (anchorDate act anchorDay) 1) anchorDay) ∧
    toRataDie act < toRataDie (firstAnchorAfterActivation act anchorDay) := by
  obtain ⟨y, m, d⟩ := act
  obtain ⟨hm, hd1, hd2⟩ := hv
  simp only at hm hd1 hd2
  unfold firstAnchorAfterActivation
  dsimp only
  split_ifs with hc
  · refine ⟨fun h => absurd hc (by omega), fun _ => rfl, ?_⟩
    exact toRataDie_lt_next_anchor y m d _ anchorDay hm hd2
  · exact ⟨fun _ => rfl, fun h => absurd h hc, by omega⟩

/-- Witness for C4 (amended) at activation 2025-10-14, anchor day 15. -/
theorem claim_C4_witness :
    (Prorata.Date.Valid ⟨2025, 9, 14⟩) ∧
    ((toRataDie ⟨2025, 9, 14⟩ < toRataDie (anchorDate ⟨2025, 9, 14⟩ 15) →
        firstAnchorAfterActivation ⟨2025, 9, 14⟩ 15 = anchorDate ⟨2025, 9, 14⟩ 15) ∧
     (toRataDie (anchorDate ⟨2025, 9, 14⟩ 15) ≤ toRataDie ⟨2025, 9, 14⟩ →
        firstAnchorAfterActivation ⟨2025, 9, 14⟩ 15 =
          anchorDate (shiftMonth (anchorDate ⟨2025, 9, 14⟩ 15) 1) 15) ∧
     toRataDie ⟨2025, 9, 14⟩ < toRataDie (firstAnchorAfterActivation ⟨2025, 9, 14⟩ 15)) :=
  ⟨by decide, claim_C4 ⟨2025, 9, 14⟩ 15 (by decide)⟩

/-- Counterexample to C7 as stated: a negative monthly amount (−30) is not
rejected by the prorate engine; the call computes and returns a complete,
silent result (cycle 2025-09-15 → 2025-10-15, ratio 1/30, value −1). -/
theorem claim_C7_counterexample :
    prorate (-30) ⟨2025, 9, 14⟩ 15 .remaining =
      { start := ⟨2025, 8, 15⟩, stop := ⟨2025, 9, 15⟩, days := 30,
        usedDays := 1, ratio := 1/30, value := -1 } := by
  have h1 : anchorCycle ⟨2025, 9, 14⟩ 15 = ⟨⟨2025, 8, 15⟩, ⟨2025, 9, 15⟩, 30⟩ := by decide
  have h2 : daysBetween ⟨2025, 9, 14⟩ ⟨2025, 9, 15⟩ = 1 := by decide
  unfold prorate
  norm_num [h1, h2]

/-- C7 (amended): the prorate engine itself performs no input validation
and has no error path: a negative monthly amount is processed like any
other, producing the proportional (non-positive) `value = monthly × ratio`;
the non-negativity validation exists only in the separate input schema
`proRataInputSchema`, which rejects such an amount. -/
theorem claim_C7 (monthly : ℚ) (pivot : Prorata.Date) (anchorDay : Nat)
    (mode : ProrateMode) (hneg : monthly < 0) :
    (prorate monthly pivot anchorDay mode).value =
      monthly * (prorate monthly pivot anchorDay mode).ratio ∧
    (prorate monthly pivot anchorDay mode).value ≤ 0 ∧
    proRataInputSchemaOk monthly none = false := by
  have hr : 0 ≤ (prorate monthly pivot anchorDay mode).ratio := by
    unfold prorate
    dsimp only
    split_ifs with h0
    · exact le_refl 0
    · apply div_nonneg
      · cases mode <;> exact Int.cast_nonneg.mpr (le_max_left 0 _)
      · have : 0 ≤ (anchorCycle pivot anchorDay).days := by
          unfold anchorCycle
          dsimp only
          split_ifs <;> exact le_max_left 0 _
        exact Int.cast_nonneg.mpr this
  refine ⟨rfl, ?_, ?_⟩
  · have hval : (prorate monthly pivot anchorDay mode).value =
        monthly * (prorate monthly pivot anchorDay mode).ratio := rfl
    rw [hval]
    exact mul_nonpos_iff.mpr (Or.inr ⟨hneg.le, hr⟩)
  · unfold proRataInputSchemaOk
    simp [hneg.not_le]

/-- Witness for C7 (amended) at monthly −30, pivot 2025-10-14, anchor 15,
remaining mode. -/
theorem claim_C7_witness :
    ((-30 : ℚ) < 0) ∧
    ((prorate (-30) ⟨2025, 9, 14⟩ 15 .remaining).value =
        (-30) * (prorate (-30) ⟨2025, 9, 14⟩ 15 .remaining).ratio ∧
     (prorate (-30) ⟨2025, 9, 14⟩ 15 .remaining).value ≤ 0 ∧
     proRataInputSchemaOk (-30) none = false) :=
  ⟨by norm_num, claim_C7 (-30) ⟨2025, 9, 14⟩ 15 .remaining (by norm_num)⟩

/-- Counterexample to C8 as stated: at vatRate = −1 the denominator
1 + vatRate vanishes, the gross is 0 and the recovered net is 0, which is
not within 1e-9 relative tolerance of the original net 100 (the source,
in floating point, produces NaN at this rate — likewise not within
tolerance). -/
theorem claim_C8_counterexample :
    grossFromNet 100 (-1) = 0 ∧
    netFromGross (grossFromNet 100 (-1)) (-1) = 0 ∧
    ¬ |netFromGross (grossFromNet 100 (-1)) (-1) - 100| ≤ 100 * (1 / 1000000000) := by
  refine ⟨?_, ?_, ?_⟩
  · unfold grossFromNet
    norm_num
  · unfold netFromGross grossFromNet
    norm_num
  · unfold netFromGross grossFromNet
    norm_num

/-- C8 (amended): for every net > 0 and every vatRate with
1 + vatRate ≠ 0, the round-trip net → gross → net returns the original
net exactly (hence within any relative tolerance), and gross − net equals
net × vatRate exactly. -/
theorem claim_C8 (net vatRate : ℚ) (hnet : 0 < net) (hv : 1 + vatRate ≠ 0) :
    netFromGross (grossFromNet net vatRate) vatRate = net ∧
    grossFromNet net vatRate - net = net * vatRate := by
  constructor
  · unfold netFromGross grossFromNet
    field_simp
    ring
  · unfold grossFromNet
    ring

/-- Witness for C8 (amended) at net 100, vatRate 0.16. -/
theorem claim_C8_witness :
    ((0 : ℚ) < 100) ∧ ((1 : ℚ) + 16/100 ≠ 0) ∧
    (netFromGross (grossFromNet 100 (16/100)) (16/100) = 100 ∧
     grossFromNet 100 (16/100) - 100 = 100 * (16/100)) :=
  ⟨by norm_num, by norm_num, claim_C8 100 (16/100) (by norm_num) (by norm_num)⟩

/-- C2: for every valid pivot date and anchorDay in [1,31], the cycle
returned by `anchorCycle` has end strictly after start, its `days` field
is exactly the whole-day difference end − start, and both boundary dates
fall on the clamped anchor day of their respective months. -/
theorem claim_C2 (pivot : Prorata.Date) (anchorDay : Nat)
    (hv : pivot.Valid) (h1 : 1 ≤ anchorDay) (h31 : anchorDay ≤ 31) :
    toRataDie (anchorCycle pivot anchorDay).start <
      toRataDie (anchorCycle pivot anchorDay).stop ∧
    (anchorCycle pivot anchorDay).days =
      daysBetween (anchorCycle pivot anchorDay).start (anchorCycle pivot anchorDay).stop ∧
    (anchorCycle pivot anchorDay).start.day =
      clampAnchorDay (anchorCycle pivot anchorDay).start.year
        (anchorCycle pivot anchorDay).start.month anchorDay ∧
    (anchorCycle pivot anchorDay).stop.day =
      clampAnchorDay (anchorCycle pivot anchorDay).stop.year
        (anchorCycle pivot anchorDay).stop.month anchorDay := by
  obtain ⟨y, m, d⟩ := pivot
  obtain ⟨hm, hd1, hd2⟩ := hv
  simp only at hm hd1 hd2
  unfold anchorCycle
  dsimp only
  split_ifs with hc <;> dsimp only
  · have hlt : toRataDie (anchorDate (shiftMonth (anchorDate ⟨y, m, d⟩ anchorDay) (-1))
          anchorDay) < toRataDie (anchorDate ⟨y, m, d⟩ anchorDay) :=
      prev_anchor_lt_toRataDie y m (clampAnchorDay y m anchorDay)
        (clampAnchorDay y m anchorDay) anchorDay hm (clampAnchorDay_pos y m anchorDay)
    refine ⟨hlt, ?_, rfl, rfl⟩
    unfold daysBetween at hlt ⊢
    omega
  · have hlt : toRataDie (anchorDate ⟨y, m, d⟩ anchorDay) <
        toRataDie (anchorDate (shiftMonth (anchorDate ⟨y, m, d⟩ anchorDay) 1) anchorDay) :=
      toRataDie_lt_next_anchor y m (clampAnchorDay y m anchorDay)
        (clampAnchorDay y m anchorDay) anchorDay hm (clampAnchorDay_le y m anchorDay)
    refine ⟨hlt, ?_, rfl, rfl⟩
    unfold daysBetween at hlt ⊢
    omega

/-- Witness for C2 at pivot 2024-02-29, anchor day 31 (leap-February
clamping case). -/
theorem claim_C2_witness :
    (Prorata.Date.Valid ⟨2024, 1, 29⟩) ∧ (1 : Nat) ≤ 31 ∧ (31 : Nat) ≤ 31 ∧
    (toRataDie (anchorCycle ⟨2024, 1, 29⟩ 31).start <
       toRataDie (anchorCycle ⟨2024, 1, 29⟩ 31).stop ∧
     (anchorCycle ⟨2024, 1, 29⟩ 31).days =
       daysBetween (anchorCycle ⟨2024, 1, 29⟩ 31).start (anchorCycle ⟨2024, 1, 29⟩ 31).stop ∧
     (anchorCycle ⟨2024, 1, 29⟩ 31).start.day =
       clampAnchorDay (anchorCycle ⟨2024, 1, 29⟩ 31).start.year
         (anchorCycle ⟨2024, 1, 29⟩ 31).start.month 31 ∧
     (anchorCycle ⟨2024, 1, 29⟩ 31).stop.day =
       clampAnchorDay (anchorCycle ⟨2024, 1, 29⟩ 31).stop.year
         (anchorCycle ⟨2024, 1, 29⟩ 31).stop.month 31) :=
  ⟨by decide, by decide, by decide,
    claim_C2 ⟨2024, 1, 29⟩ 31 (by decide) (by decide) (by decide)⟩

/-- C3: for every valid pivot date and anchorDay in [1,31], the pivot lies
inside its own cycle — start ≤ pivot < end — and a pivot exactly on its
month's (clamped) anchor date is the start of the cycle returned. -/
theorem claim_C3 (pivot : Prorata.Date) (anchorDay : Nat)
    (hv : pivot.Valid) (h1 : 1 ≤ anchorDay) (h31 : anchorDay ≤ 31) :
    toRataDie (anchorCycle pivot anchorDay).start ≤ toRataDie pivot ∧
    toRataDie pivot < toRataDie (anchorCycle pivot anchorDay).stop ∧
    (pivot.day = clampAnchorDay pivot.year pivot.month anchorDay →
      (anchorCycle pivot anchorDay).start = pivot) := by
  obtain ⟨y, m, d⟩ := pivot
  obtain ⟨hm, hd1, hd2⟩ := hv
  simp only at hm hd1 hd2
  unfold anchorCycle
  dsimp only
  split_ifs with hc <;> dsimp only
  · refine ⟨?_, by omega, ?_⟩
    · exact (prev_anchor_lt_toRataDie y m d (clampAnchorDay y m anchorDay)
        anchorDay hm hd1).le
    · intro h
      subst h
      have hAD : anchorDate (⟨y, m, clampAnchorDay y m anchorDay⟩ : Prorata.Date)
          anchorDay = ⟨y, m, clampAnchorDay y m anchorDay⟩ := rfl
      rw [hAD] at hc
      exact absurd hc (by omega)
  · refine ⟨by omega, ?_, ?_⟩
    · exact toRataDie_lt_next_anchor y m d (clampAnchorDay y m anchorDay) anchorDay hm hd2
    · intro h
      show (⟨y, m, clampAnchorDay y m anchorDay⟩ : Prorata.Date) = ⟨y, m, d⟩
      rw [h]

/-- Witness for C3 at pivot 2025-10-15 on anchor day 15 (the boundary
case: the pivot equals its anchor and starts its own cycle). -/
theorem claim_C3_witness :
    (Prorata.Date.Valid ⟨2025, 9, 15⟩) ∧ (1 : Nat) ≤ 15 ∧ (15 : Nat) ≤ 31 ∧
    (toRataDie (anchorCycle ⟨2025, 9, 15⟩ 15).start ≤ toRataDie ⟨2025, 9, 15⟩ ∧
     toRataDie ⟨2025, 9, 15⟩ < toRataDie (anchorCycle ⟨2025, 9, 15⟩ 15).stop ∧
     ((⟨2025, 9, 15⟩ : Prorata.Date).day =
        clampAnchorDay (⟨2025, 9, 15⟩ : Prorata.Date).year
          (⟨2025, 9, 15⟩ : Prorata.Date).month 15 →
       (anchorCycle ⟨2025, 9, 15⟩ 15).start = ⟨2025, 9, 15⟩)) :=
  ⟨by decide, by decide, by decide,
    claim_C3 ⟨2025, 9, 15⟩ 15 (by decide) (by decide) (by decide)⟩

/-- C10: for every monthly amount and every valid activation date lying
exactly on its month's (clamped) anchor day, the activation prorata
computation bills a complete extra month: proDays equals the full cycle
length, the ratio is exactly 1, and the pro-rata amount equals the full
monthly amount. -/
theorem claim_C10 (monthly : ℚ) (act : Prorata.Date) (anchorDay : Nat)
    (hv : act.Valid)
    (ha : act.day = clampAnchorDay act.year act.month anchorDay) :
    (computeActivationProrata monthly act anchorDay).proDays =
      (computeActivationProrata monthly act anchorDay).days ∧
    (computeActivationProrata monthly act anchorDay).ratio = 1 ∧
    (computeActivationProrata monthly act anchorDay).proAmountRaw = monthly := by
  obtain ⟨y, m, d⟩ := act
  obtain ⟨hm, hd1, hd2⟩ := hv
  simp only at hm hd1 hd2 ha
  subst ha
  have hfa : firstAnchorAfterActivation ⟨y, m, clampAnchorDay y m anchorDay⟩ anchorDay =
      anchorDate (shiftMonth ⟨y, m, clampAnchorDay y m anchorDay⟩ 1) anchorDay := by
    unfold firstAnchorAfterActivation
    dsimp only
    have hcond : toRataDie (anchorDate ⟨y, m, clampAnchorDay y m anchorDay⟩ anchorDay) ≤
        toRataDie ⟨y, m, clampAnchorDay y m anchorDay⟩ := le_of_eq rfl
    rw [if_pos hcond]
    rfl
  have hUD := shiftMonth_up_down y m (clampAnchorDay y m anchorDay) anchorDay hm
  have hstart : anchorDate (shiftMonth (anchorDate
        (shiftMonth ⟨y, m, clampAnchorDay y m anchorDay⟩ 1) anchorDay) (-1)) anchorDay =
      ⟨y, m, clampAnchorDay y m anchorDay⟩ := by
    rw [show anchorDate (shiftMonth (anchorDate
          (shiftMonth ⟨y, m, clampAnchorDay y m anchorDay⟩ 1) anchorDay) (-1)) anchorDay =
        (⟨(shiftMonth (anchorDate (shiftMonth ⟨y, m, clampAnchorDay y m anchorDay⟩ 1)
             anchorDay) (-1)).year,
          (shiftMonth (anchorDate (shiftMonth ⟨y, m, clampAnchorDay y m anchorDay⟩ 1)
             anchorDay) (-1)).month,
          clampAnchorDay
            (shiftMonth (anchorDate (shiftMonth ⟨y, m, clampAnchorDay y m anchorDay⟩ 1)
               anchorDay) (-1)).year
            (shiftMonth (anchorDate (shiftMonth ⟨y, m, clampAnchorDay y m anchorDay⟩ 1)
               anchorDay) (-1)).month anchorDay⟩ : Prorata.Date) from rfl]
    rw [hUD.1, hUD.2]
  have hlt : toRataDie ⟨y, m, clampAnchorDay y m anchorDay⟩ <
      toRataDie (anchorDate (shiftMonth ⟨y, m, clampAnchorDay y m anchorDay⟩ 1)
        anchorDay) :=
    toRataDie_lt_next_anchor y m (clampAnchorDay y m anchorDay)
      (clampAnchorDay y m anchorDay) anchorDay hm (clampAnchorDay_le y m anchorDay)
  have hdb : 0 < daysBetween ⟨y, m, clampAnchorDay y m anchorDay⟩
      (anchorDate (shiftMonth ⟨y, m, clampAnchorDay y m anchorDay⟩ 1) anchorDay) := by
    unfold daysBetween
    omega
  unfold computeActivationProrata cycleFromAnchor
  rw [hfa]
  dsimp only
  rw [hstart]
  have hne : ((0 ⊔ daysBetween ⟨y, m, clampAnchorDay y m anchorDay⟩
      (anchorDate (shiftMonth ⟨y, m, clampAnchorDay y m anchorDay⟩ 1) anchorDay) : Int) : ℚ)
      ≠ 0 := Int.cast_ne_zero.mpr (by omega)
  refine ⟨rfl, ?_, ?_⟩
  · rw [if_neg (by omega)]
    exact div_self hne
  · rw [if_neg (by omega)]
    rw [div_self hne, mul_one]

/-- Witness for C10 at monthly 30, activation 2025-09-15 (month index 8),
anchor day 15. -/
theorem claim_C10_witness :
    (Prorata.Date.Valid ⟨2025, 8, 15⟩) ∧
    ((⟨2025, 8, 15⟩ : Prorata.Date).day =
      clampAnchorDay (⟨2025, 8, 15⟩ : Prorata.Date).year
        (⟨2025, 8, 15⟩ : Prorata.Date).month 15) ∧
    ((computeActivationProrata 30 ⟨2025, 8, 15⟩ 15).proDays =
       (computeActivationProrata 30 ⟨2025, 8, 15⟩ 15).days ∧
     (computeActivationProrata 30 ⟨2025, 8, 15⟩ 15).ratio = 1 ∧
     (computeActivationProrata 30 ⟨2025, 8, 15⟩ 15).proAmountRaw = 30) :=
  ⟨by decide, by decide, claim_C10 30 ⟨2025, 8, 15⟩ 15 (by decide) (by decide)⟩
